import Mathlib

/-!
Verification of the metalgpy expression library (src/metalgpy/_expression.py)
against its natural-language specification.

The Python source is shallowly embedded: each Python method relevant to a
claim is translated into an executable Lean definition over explicit data.
Python exceptions are modelled with Except, mutation with explicit state
passing, and the CPython runtime facts the code relies on (attribute
lookup, truthiness, dict/list semantics) are modelled where the claims
depend on them.
-/

namespace MetalGPy

/-- PyVal models the plain (non-Expression) Python values that flow through
the library: None, ints, floats (as rationals), strings, booleans, lists,
and the NotImplemented singleton that a dunder method returns when it does
not handle its operand. -/
inductive PyVal where
  | none : PyVal
  | int : Int → PyVal
  | float : ℚ → PyVal
  | str : String → PyVal
  | bool : Bool → PyVal
  | listv : List PyVal → PyVal
  | notimplemented : PyVal

/-- PyErr models the Python exceptions the library can raise: KeyError from
a missing choice entry, IndexError from list indexing, AssertionError from
the assert statements in List.freeze, TypeError from unsupported
comparisons or indexing, AttributeError from a failed attribute lookup on
a concrete value, and the ValueError raised by Int.freeze / Float.freeze
(which names the variable and the violated range, so the payload carries
the variable identity, both bounds and the offending choice). -/
inductive PyErr where
  | keyError : String → PyErr
  | indexError : PyErr
  | assertionError : PyErr
  | typeError : PyErr
  | attributeError : String → PyErr
  | invalidChoice : String → PyVal → PyVal → PyVal → PyErr
  | badIndexType : PyErr

/-- pyEqB models the Python == used on plain values in this library
(variable values, candidate lists, k, replace): structural equality, with
the usual numeric cross-type equality among int, float and bool (a Python
bool is an int). -/
def pyEqB : PyVal → PyVal → Bool
  | .none, .none => true
  | .int n, .int m => n == m
  | .int n, .float q => (n : ℚ) == q
  | .int n, .bool a => n == (if a then (1 : Int) else 0)
  | .float q, .int n => q == (n : ℚ)
  | .float q, .float r => q == r
  | .float q, .bool a => q == (if a then (1 : ℚ) else 0)
  | .bool a, .int n => (if a then (1 : Int) else 0) == n
  | .bool a, .float q => (if a then (1 : ℚ) else 0) == q
  | .bool a, .bool b => a == b
  | .str s, .str t => s == t
  | .listv l, .listv m => listPyEqB l m
  | .notimplemented, .notimplemented => true
  | _, _ => false
where
  /-- listPyEqB compares two Python lists elementwise. -/
  listPyEqB : List PyVal → List PyVal → Bool
  | [], [] => true
  | x :: xs, y :: ys => pyEqB x y && listPyEqB xs ys
  | _, _ => false

/-- pyNumQ views a Python value as a number when the numeric comparison
operators accept it: ints, floats and bools (a bool compares as 0 or 1). -/
def pyNumQ : PyVal → Option ℚ
  | .int n => some (n : ℚ)
  | .float q => some q
  | .bool b => some (if b then 1 else 0)
  | _ => Option.none

/-- pyGT models the Python > comparison as used by Int.freeze and
Float.freeze: defined between numbers, a TypeError otherwise. -/
def pyGT (x y : PyVal) : Except PyErr Bool :=
  match pyNumQ x, pyNumQ y with
  | some a, some b => .ok (decide (b < a))
  | _, _ => .error .typeError

/-- pyLT models the Python < comparison, as used by the assertions in
List.freeze. -/
def pyLT (x y : PyVal) : Except PyErr Bool :=
  match pyNumQ x, pyNumQ y with
  | some a, some b => .ok (decide (a < b))
  | _, _ => .error .typeError

/-- pyLE models the Python <= comparison, as used by the assertions in
List.freeze. -/
def pyLE (x y : PyVal) : Except PyErr Bool :=
  match pyNumQ x, pyNumQ y with
  | some a, some b => .ok (decide (a ≤ b))
  | _, _ => .error .typeError

/-- pyIndex models Python list indexing values[i]: non-negative indices
from the front, negative indices wrap from the back, anything out of range
raises IndexError. -/
def pyIndex {α : Type} (l : List α) (i : Int) : Except PyErr α :=
  if h : 0 ≤ i ∧ i.toNat < l.length then
    .ok (l.get ⟨i.toNat, h.2⟩)
  else if h2 : i < 0 ∧ (i + l.length).toNat < l.length ∧ 0 ≤ i + l.length then
    .ok (l.get ⟨(i + l.length).toNat, h2.2.1⟩)
  else
    .error .indexError

/-- pySet models Python list item assignment values[i] = x for an index
that is already known to be valid; out-of-range writes leave the list
unchanged (the library only writes back at positions it has just read). -/
def pySet {α : Type} (l : List α) (i : Int) (x : α) : List α :=
  if 0 ≤ i then l.set i.toNat x
  else l.set (i + l.length).toNat x

/-- Choice models the choice mapping passed to freeze: a Python dict from
variable identity (string) to the chosen value, modelled as an association
list looked up by key. -/
def Choice : Type := List (String × PyVal)

/-- choiceLookup models choice[key]: the value stored under the key, if
present (first binding wins, as in a Python dict where each key occurs
once). -/
def choiceLookup (c : Choice) (k : String) : Option PyVal :=
  match c with
  | [] => Option.none
  | (k2, v) :: rest => if k2 == k then some v else choiceLookup rest k

/-! ## Operator symbol registry

Translated from the module-level tables BIN_OPS_SYNTAX_2_ATTR,
BIN_OPS_ATTR_2_SYNTAX, UNA_OPS_SYNTAX_2_ATTR and UNA_OPS_ATTR_2_SYNTAX
(the names are adjusted to Lean conventions). -/

/-- binOpsSymToAttr lists the binary operator symbols and the dunder
capability each maps to, in source order. -/
def binOpsSymToAttr : List (String × String) :=
  [("<", "__lt__"), ("<=", "__le__"), ("==", "__eq__"), ("!=", "__ne__"),
   (">", "__gt__"), (">=", "__ge__"),
   ("+", "__add__"), ("-", "__sub__"), ("*", "__mul__"), ("@", "__matmul__"),
   ("/", "__truediv__"), ("//", "__floordiv__"), ("%", "__mod__"),
   ("**", "__pow__"),
   ("and", "__and__"), ("^", "__xor__"), ("or", "__or__")]

/-- binOpsAttrToSym inverts binOpsSymToAttr, as the dict comprehension in
the source does. -/
def binOpsAttrToSym : List (String × String) :=
  binOpsSymToAttr.map (fun p => (p.2, p.1))

/-- unaOpsSymToAttr lists the unary operator symbols and their dunder
capabilities. -/
def unaOpsSymToAttr : List (String × String) :=
  [("-", "__neg__"), ("+", "__pos__"), ("~", "__invert__")]

/-- unaOpsAttrToSym inverts unaOpsSymToAttr. -/
def unaOpsAttrToSym : List (String × String) :=
  unaOpsSymToAttr.map (fun p => (p.2, p.1))

/-! ## Expression nodes

A fragment of the node hierarchy sufficient for the graph-level claims:
ObjectExpression leaves, BinaryExpression and UnaryExpression nodes, and
variable leaves. A node field holding a child is either a plain value or
an Expression, exactly as in the source where left/right/x may be either. -/

mutual
/-- Expr models the Expression node kinds used by the claims: objectE is
ObjectExpression (wrapping a concrete external value), binE is
BinaryExpression with fields left, right, operator, unaryE is
UnaryExpression with fields operator, x, and varE is a variable leaf
carrying the construction tag (its VarExpression.var_id), its identity
string (the id property) and its bound value. -/
inductive Expr where
  | objectE : PyVal → Expr
  | binE : Opnd → Opnd → String → Expr
  | unaryE : String → Opnd → Expr
  | varE : Nat → String → PyVal → Expr
/-- Opnd models a node field that can hold either a plain (non-Expression)
value or a child Expression, as left/right/x can in the source. -/
inductive Opnd where
  | val : PyVal → Opnd
  | expr : Expr → Opnd
end

/-- getattrBinOp models getattr(value, attr) for the binary dunder methods
on the concrete evaluated values this development uses (a fragment of the
external Python ecosystem, not repository code): ints and strings support
__add__, ints support __sub__ and __mul__; a dunder that does not handle
its operand type returns the NotImplemented value, exactly as CPython
bound methods do; a value without the attribute yields no method, which
evaluate turns into an AttributeError. None in particular has no __add__,
so it exercises the absence of a reflected-dispatch fallback. -/
def getattrBinOp : PyVal → String → Option (PyVal → PyVal)
  | .int n, "__add__" =>
      some (fun w => match w with | .int m => .int (n + m) | _ => .notimplemented)
  | .int n, "__sub__" =>
      some (fun w => match w with | .int m => .int (n - m) | _ => .notimplemented)
  | .int n, "__mul__" =>
      some (fun w => match w with | .int m => .int (n * m) | _ => .notimplemented)
  | .str s, "__add__" =>
      some (fun w => match w with | .str t => .str (s ++ t) | _ => .notimplemented)
  | _, _ => Option.none

/-- getattrUnaOp models getattr(value, attr) for the unary dunder methods
on concrete evaluated values: ints support __neg__ and __pos__. -/
def getattrUnaOp : PyVal → String → Option PyVal
  | .int n, "__neg__" => some (.int (-n))
  | .int n, "__pos__" => some (.int n)
  | _, _ => Option.none

mutual
/-- Expr.evaluate translates the evaluate methods of the concrete node
kinds. ObjectExpression.evaluate resolves children (a no-op, its only
field is the non-Expression wrapped object) and returns the wrapped
object. BinaryExpression.evaluate resolves left and right via
evaluate_children, then applies getattr(left, BIN_OPS_SYNTAX_2_ATTR[op])
to right: dispatch is solely on the left operand's own implementation,
with no fallback to the right operand's reflected method.
UnaryExpression.evaluate is the one-operand analogue. For a variable leaf,
VarExpression.evaluate returns the bound value; within this Expr universe
a variable's value is a plain PyVal, so the third (plain) branch of that
method applies (the full three-branch translation is varEvaluate below). -/
def Expr.evaluate : Expr → Except PyErr PyVal
  | .objectE obj => .ok obj
  | .binE l r op => do
      let lv ← Opnd.resolve l
      let rv ← Opnd.resolve r
      match binOpsSymToAttr.lookup op with
      | Option.none => .error (.keyError op)
      | some attr =>
          match getattrBinOp lv attr with
          | Option.none => .error (.attributeError attr)
          | some impl => .ok (impl rv)
  | .unaryE op x => do
      let xv ← Opnd.resolve x
      match unaOpsSymToAttr.lookup op with
      | Option.none => .error (.keyError op)
      | some attr =>
          match getattrUnaOp xv attr with
          | Option.none => .error (.attributeError attr)
          | some res => .ok res
  | .varE _ _ v => .ok v
/-- Opnd.resolve translates what evaluate_children does to one field: an
Expression field is replaced by the result of its evaluate call, a plain
value passes through unchanged. -/
def Opnd.resolve : Opnd → Except PyErr PyVal
  | .val v => .ok v
  | .expr e => Expr.evaluate e
end

/-- exprDunderAdd translates Expression.__add__: building a new
BinaryExpression with self on the left, the operand on the right and the
symbol obtained from the inverse registry for __add__. -/
def exprDunderAdd (self : Expr) (other : Opnd) : Expr :=
  Expr.binE (.expr self) other ((binOpsAttrToSym.lookup "__add__").getD "")

/-- exprDunderRAdd translates Expression.__radd__: the reflected
construction used when a plain value stands on the left, producing
BinaryExpression(other, self, symbol) and so preserving left/right order
as written. -/
def exprDunderRAdd (self : Expr) (other : Opnd) : Expr :=
  Expr.binE other (.expr self) ((binOpsAttrToSym.lookup "__add__").getD "")

/-! ## The choices traversal

Python dicts that only ever need lookup semantics (the memo built by
choices) are modelled extensionally as lookup functions; dict assignment
and dict.update become pointwise overrides in which the newly written
binding wins, exactly the observable behaviour of the source dicts. -/

/-- VarMemo is the memo dict built by Expression.choices, mapping a
variable identity string to the variable recorded under it (represented by
its construction tag). -/
def VarMemo : Type := String → Option Nat

/-- varMemoEmpty models the empty dict the traversal starts from. -/
def varMemoEmpty : VarMemo := fun _ => Option.none

/-- varMemoInsert models the dict assignment memo[id] = var: the new
binding overwrites any previous one under the same key. -/
def varMemoInsert (m : VarMemo) (key : String) (tag : Nat) : VarMemo :=
  fun k => if key == k then some tag else m k

/-- optElse returns the first option when it holds a value, else the
second: the lookup that results from laying one overwriting dict over
another. -/
def optElse (a b : Option Nat) : Option Nat :=
  match a with
  | some x => some x
  | Option.none => b

/-- varMemoUpdate models memo.update(other): every key present in other
takes the value other holds, keys absent from other keep their value in
memo. -/
def varMemoUpdate (m other : VarMemo) : VarMemo :=
  fun k => optElse (other k) (m k)

mutual
/-- Expr.choices translates the choices methods. Expression.choices walks
the node's field dict with tree.map_structure (for a BinaryExpression the
visited fields are left, operator and right; the operator string is not an
Expression and contributes nothing) applying choiceAux to each leaf;
VarExpression.choices (the override taken at a variable node) returns the
single-entry dict from its identity to itself. -/
def Expr.choices : Expr → VarMemo
  | .objectE _ => varMemoEmpty
  | .binE l r _ => choiceAux (choiceAux varMemoEmpty l) r
  | .unaryE _ x => choiceAux varMemoEmpty x
  | .varE tag idStr _ => varMemoInsert varMemoEmpty idStr tag
/-- choiceAux translates the choice_aux closure inside Expression.choices:
a non-Expression leaf is skipped; an Expression leaf that is a variable is
recorded under its identity with memo[o.id] = o; any other Expression leaf
contributes its own choices via memo.update(o.choices()). -/
def choiceAux : VarMemo → Opnd → VarMemo
  | m, .val _ => m
  | m, .expr e =>
      match e with
      | .varE tag idStr _ => varMemoInsert m idStr tag
      | e2 => varMemoUpdate m (Expr.choices e2)
end

mutual
/-- Expr.varOccs lists the variable occurrences the choices traversal
encounters, in traversal order, as pairs of identity and construction tag;
it stops at variables exactly as the traversal does. -/
def Expr.varOccs : Expr → List (String × Nat)
  | .objectE _ => []
  | .binE l r _ => Opnd.varOccs l ++ Opnd.varOccs r
  | .unaryE _ x => Opnd.varOccs x
  | .varE tag idStr _ => [(idStr, tag)]
/-- Opnd.varOccs lists the variable occurrences under one node field. -/
def Opnd.varOccs : Opnd → List (String × Nat)
  | .val _ => []
  | .expr e => Expr.varOccs e
end

/-- lastOcc returns the value of the last pair in the list carrying the
given key, if any: the entry a sequence of overwriting dict assignments
ends up keeping. -/
def lastOcc (l : List (String × Nat)) (k : String) : Option Nat :=
  match l with
  | [] => Option.none
  | (k2, v) :: rest =>
      optElse (lastOcc rest k) (if k2 == k then some v else Option.none)

/-! ## Variable evaluation (VarExpression.evaluate)

The value field of a variable can hold the absent marker None, a plain
value, an Expression, or a nested Python structure containing either;
VarExpression.evaluate branches on exactly these three shapes. -/

/-- VValue models what the value slot of a variable can hold, as seen by
VarExpression.evaluate: a plain (non-Expression, non-nested) value, an
Expression, or a Python list of such slots, which tree.is_nested
recognizes as a nested structure. -/
inductive VValue where
  | pv : PyVal → VValue
  | ve : Expr → VValue
  | vlist : List VValue → VValue

mutual
/-- mapStructEval translates the tree.map_structure call in
VarExpression.evaluate: every Expression leaf inside the nested structure
is replaced by the result of its evaluate call, every other leaf passes
through unchanged, and the nesting is preserved. -/
def mapStructEval : VValue → Except PyErr VValue
  | .pv v => .ok (.pv v)
  | .ve e => (Expr.evaluate e).map VValue.pv
  | .vlist l => (mapStructEvalList l).map VValue.vlist
/-- mapStructEvalList maps mapStructEval across one level of a nested
list. -/
def mapStructEvalList : List VValue → Except PyErr (List VValue)
  | [] => .ok []
  | x :: xs => do
      let y ← mapStructEval x
      let ys ← mapStructEvalList xs
      .ok (y :: ys)
end

/-- isNestedV models tree.is_nested on a value slot: true exactly for the
collection shapes (None and scalar values are not nested). A PyVal-level
list stored as a plain slot also counts, matching the runtime check. -/
def isNestedV : VValue → Bool
  | .vlist _ => true
  | .pv (.listv _) => true
  | _ => false

/-- varEvaluate translates VarExpression.evaluate: if the value currently
holds an Expression, evaluate it and return the result; else if it is a
nested structure, evaluate any Expression leaves inside it via
tree.map_structure; otherwise return the value unchanged. There is no
branch for the absent marker: None takes the final branch and is returned
as the result (for a plain PyVal-level list the nested branch maps leaves
that are never Expressions, reproducing the same value). -/
def varEvaluate : VValue → Except PyErr VValue
  | .ve e => (Expr.evaluate e).map VValue.pv
  | v => if isNestedV v then mapStructEval v else .ok v

/-! ## The concrete variable kinds and freeze -/

/-- IBound models a bound of an Int variable: either a literal integer or
itself a variable (the isinstance(bound, VarExpression) case), recorded
here by that variable's identity string. -/
inductive IBound where
  | lit : Int → IBound
  | varB : String → IBound

/-- FBound models a bound of a Float variable: a literal (floats are
modelled as rationals; the freeze logic at issue only compares them) or a
variable. -/
inductive FBound where
  | lit : ℚ → FBound
  | varB : String → FBound

/-- IntVar models the state of an Int variable: the VarExpression fields
var_id (the value of the process-wide counter captured at construction)
and name (the optional explicit name), the two bounds, and the value
field, which starts as the class attribute None. -/
structure IntVar where
  var_id : Nat
  name : Option String
  low : IBound
  high : IBound
  value : PyVal

/-- FloatVar models the state of a Float variable, mirroring IntVar. -/
structure FloatVar where
  var_id : Nat
  name : Option String
  low : FBound
  high : FBound
  value : PyVal

/-- IntVar.idStr translates the id property: the explicit name when one
was supplied and truthy (a non-empty string), else the decimal string of
the construction counter. -/
def IntVar.idStr (v : IntVar) : String :=
  match v.name with
  | some n => if n == "" then toString v.var_id else n
  | Option.none => toString v.var_id

/-- FloatVar.idStr translates the id property for a Float variable. -/
def FloatVar.idStr (v : FloatVar) : String :=
  match v.name with
  | some n => if n == "" then toString v.var_id else n
  | Option.none => toString v.var_id

/-- intNew translates Int.__init__ together with VarExpression.__init__:
it records the name and the current counter value (the process-wide
counter is passed explicitly), stores the bounds, and leaves the value
field as the class attribute None; no value is ever assigned during
construction. -/
def intNew (low high : IBound) (name : Option String) (ctr : Nat) : IntVar :=
  { var_id := ctr, name := name, low := low, high := high, value := .none }

/-- floatNew translates Float.__init__ the same way. -/
def floatNew (low high : FBound) (name : Option String) (ctr : Nat) : FloatVar :=
  { var_id := ctr, name := name, low := low, high := high, value := .none }

/-- freezeInt translates Int.freeze. The method first reads
choice[self.id] (a KeyError when the identity is absent); then, when
neither bound is a VarExpression, it evaluates
self._low > choice or choice > self._high with Python short-circuiting
and raises the ValueError naming the variable and the violated range when
the disjunction is truthy; only after that does it assign self.value, so
each failure path returns before any mutation. The result pairs the state
after the call with its outcome. -/
def freezeInt (v : IntVar) (choice : Choice) : IntVar × Except PyErr Unit :=
  match choiceLookup choice v.idStr with
  | Option.none => (v, .error (.keyError v.idStr))
  | some c =>
      match v.low, v.high with
      | .lit lo, .lit hi =>
          match pyGT (.int lo) c with
          | .error e => (v, .error e)
          | .ok true => (v, .error (.invalidChoice v.idStr (.int lo) (.int hi) c))
          | .ok false =>
              match pyGT c (.int hi) with
              | .error e => (v, .error e)
              | .ok true => (v, .error (.invalidChoice v.idStr (.int lo) (.int hi) c))
              | .ok false => ({ v with value := c }, .ok ())
      | _, _ => ({ v with value := c }, .ok ())

/-- freezeFloat translates Float.freeze, which has the identical structure
to Int.freeze: range validation only when both bounds are literal, the
same failure signal shape, assignment last. -/
def freezeFloat (v : FloatVar) (choice : Choice) : FloatVar × Except PyErr Unit :=
  match choiceLookup choice v.idStr with
  | Option.none => (v, .error (.keyError v.idStr))
  | some c =>
      match v.low, v.high with
      | .lit lo, .lit hi =>
          match pyGT (.float lo) c with
          | .error e => (v, .error e)
          | .ok true => (v, .error (.invalidChoice v.idStr (.float lo) (.float hi) c))
          | .ok false =>
              match pyGT c (.float hi) with
              | .error e => (v, .error e)
              | .ok true => (v, .error (.invalidChoice v.idStr (.float lo) (.float hi) c))
              | .ok false => ({ v with value := c }, .ok ())
      | _, _ => ({ v with value := c }, .ok ())

/-! ## The List variable and List.freeze -/

/-- Cand models one candidate of a List variable: either a plain value or
an Expression; the Expression case is represented by an Int variable,
which is the shape the propagation step of List.freeze acts on (it calls
freeze(choice) on the candidate). -/
inductive Cand where
  | cval : PyVal → Cand
  | cvar : IntVar → Cand

/-- KSpec models the _k field of a List: absent, a literal integer, or a
variable (recorded by that variable's identity string, which is what the
freeze branch reads from it). -/
inductive KSpec where
  | noK : KSpec
  | kLit : Int → KSpec
  | kVar : String → KSpec

/-- LValue models what List.freeze stores into the value field: a single
candidate (scalar index) or a Python list of candidates (index list). -/
inductive LValue where
  | single : Cand → LValue
  | multi : List Cand → LValue

/-- ListVar models the state of a List variable: the VarExpression fields,
the candidate list copied at construction, k, replace, invariant, and the
value field (None until frozen). -/
structure ListVar where
  var_id : Nat
  name : Option String
  values : List Cand
  k : KSpec
  replace : Bool
  invariant : Bool
  value : Option LValue

/-- ListVar.idStr translates the id property for a List variable. -/
def ListVar.idStr (v : ListVar) : String :=
  match v.name with
  | some n => if n == "" then toString v.var_id else n
  | Option.none => toString v.var_id

/-- listNew translates List.__init__ together with VarExpression.__init__:
the candidates are copied into the internal list, k, replace and invariant
are stored, and the value field stays the class attribute None. -/
def listNew (values : List Cand) (k : KSpec) (replace invariant : Bool)
    (name : Option String) (ctr : Nat) : ListVar :=
  { var_id := ctr, name := name, values := values, k := k,
    replace := replace, invariant := invariant, value := Option.none }

/-- Idx models the Python value the idx local of List.freeze holds: the
scalar read straight from the choice mapping, or a list of indices (built
by the range comprehension or unpacked from a list-shaped choice). -/
inductive Idx where
  | scalar : PyVal → Idx
  | ilist : List PyVal → Idx

/-- candAt models the element access self._values[i] performed inside the
iterable branch of List._getitem: the index must be an integer (a bool
indexes as 0 or 1, as in Python), anything else is a TypeError, and an
out-of-range index is an IndexError. -/
def candAt (values : List Cand) : PyVal → Except PyErr Cand
  | .int i => pyIndex values i
  | .bool b => pyIndex values (if b then 1 else 0)
  | _ => .error .typeError

/-- candsAt maps candAt over a list of indices, as the comprehension
building the multi-candidate result does, stopping at the first failure. -/
def candsAt (values : List Cand) : List PyVal → Except PyErr (List Cand)
  | [] => .ok []
  | i :: rest => do
      let c ← candAt values i
      let cs ← candsAt values rest
      .ok (c :: cs)

/-- listGetItem translates List._getitem as called from freeze:
np.issubdtype(type(item), np.integer) admits ints and bools and indexes a
single candidate; an iterable (a list here) selects the corresponding
candidates in the given order; any other index type raises the
invalid-argument ValueError. -/
def listGetItem (values : List Cand) : Idx → Except PyErr LValue
  | .scalar (.int i) => (pyIndex values i).map .single
  | .scalar (.bool b) => (pyIndex values (if b then 1 else 0)).map .single
  | .scalar (.listv l) => (candsAt values l).map .multi
  | .scalar _ => .error .badIndexType
  | .ilist l => (candsAt values l).map .multi

/-- setCandAt models the in-place mutation of self.value[i] by the
propagation loop: the freeze call rewrites the state of the candidate
object at that position (the position is one the loop just read, so it is
in range). -/
def setCandAt (cur : List Cand) (i : PyVal) (c : Cand) : List Cand :=
  match i with
  | .int n => pySet cur n c
  | .bool b => pySet cur (if b then 1 else 0) c
  | _ => cur

/-- freezeLoop translates the propagation loop of List.freeze for an
iterable idx: for i in idx, it reads self.value[i] — indexing the freshly
assigned value list, not the candidate list — and, when that element is an
Expression, applies freeze(choice) to it with the same mapping. A failure
(an IndexError from value[i], or a failure inside the nested freeze)
aborts the loop, leaving the updates already made in place. -/
def freezeLoop (choice : Choice) (cur : List Cand) :
    List PyVal → List Cand × Except PyErr Unit
  | [] => (cur, .ok ())
  | i :: rest =>
      match candAt cur i with
      | .error e => (cur, .error e)
      | .ok (.cval _) => freezeLoop choice cur rest
      | .ok (.cvar iv) =>
          match freezeInt iv choice with
          | (iv2, .error e) => (setCandAt cur i (.cvar iv2), .error e)
          | (iv2, .ok ()) => freezeLoop choice (setCandAt cur i (.cvar iv2)) rest

/-- listFreezeIdx translates the branch structure at the top of
List.freeze that computes idx. With k absent, idx is choice[self.id],
validated by assert idx == 0 (invariant) or assert 0 <= idx < len(values)
(otherwise, with Python short-circuiting and comparison typing). With k
present and invariant, idx is list(range(count)) where the count comes
from the choice entry under k's own identity when k is a variable, else
from the entry under this List's identity. With k present and not
invariant, idx is choice[self.id], checked by assert isinstance(idx, list)
only. -/
def listFreezeIdx (v : ListVar) (choice : Choice) : Except PyErr Idx :=
  match v.k with
  | .noK =>
      match choiceLookup choice v.idStr with
      | Option.none => .error (.keyError v.idStr)
      | some idxv =>
          if v.invariant then
            if pyEqB idxv (.int 0) then .ok (.scalar idxv)
            else .error .assertionError
          else
            match pyLE (.int 0) idxv with
            | .error e => .error e
            | .ok false => .error .assertionError
            | .ok true =>
                match pyLT idxv (.int v.values.length) with
                | .error e => .error e
                | .ok false => .error .assertionError
                | .ok true => .ok (.scalar idxv)
  | .kLit _ =>
      if v.invariant then
        match choiceLookup choice v.idStr with
        | Option.none => .error (.keyError v.idStr)
        | some cnt =>
            match cnt with
            | .int n => .ok (.ilist ((List.range n.toNat).map (fun i => .int i)))
            | .bool b => .ok (.ilist ((List.range (if b then 1 else 0)).map (fun i => .int i)))
            | _ => .error .typeError
      else
        match choiceLookup choice v.idStr with
        | Option.none => .error (.keyError v.idStr)
        | some idxv =>
            match idxv with
            | .listv l => .ok (.ilist l)
            | _ => .error .assertionError
  | .kVar s =>
      if v.invariant then
        match choiceLookup choice s with
        | Option.none => .error (.keyError s)
        | some cnt =>
            match cnt with
            | .int n => .ok (.ilist ((List.range n.toNat).map (fun i => .int i)))
            | .bool b => .ok (.ilist ((List.range (if b then 1 else 0)).map (fun i => .int i)))
            | _ => .error .typeError
      else
        match choiceLookup choice v.idStr with
        | Option.none => .error (.keyError v.idStr)
        | some idxv =>
            match idxv with
            | .listv l => .ok (.ilist l)
            | _ => .error .assertionError

/-- listFreeze translates List.freeze end to end: compute idx (above),
assign self.value = self._getitem(idx), then propagate freeze(choice)
into the value: through the loop for an iterable idx (a list-shaped
scalar from the choice mapping is also iterable), or directly into the
single chosen candidate when it is an Expression. Failures leave the
mutations already performed in place, as an exception does. -/
def listFreeze (v : ListVar) (choice : Choice) : ListVar × Except PyErr Unit :=
  match listFreezeIdx v choice with
  | .error e => (v, .error e)
  | .ok idx =>
      match listGetItem v.values idx with
      | .error e => (v, .error e)
      | .ok val =>
          match idx with
          | .ilist elems =>
              match val with
              | .multi cur =>
                  match freezeLoop choice cur elems with
                  | (cur2, res) => ({ v with value := some (.multi cur2) }, res)
              | .single _ => ({ v with value := some val }, .error .typeError)
          | .scalar (.listv elems) =>
              match val with
              | .multi cur =>
                  match freezeLoop choice cur elems with
                  | (cur2, res) => ({ v with value := some (.multi cur2) }, res)
              | .single _ => ({ v with value := some val }, .error .typeError)
          | .scalar _ =>
              match val with
              | .single (.cvar iv) =>
                  match freezeInt iv choice with
                  | (iv2, res) => ({ v with value := some (.single (.cvar iv2)) }, res)
              | _ => ({ v with value := some val }, .ok ())

/-! ## Sampling with a memo (VarExpression.sample) -/

/-- MKey models the two kinds of keys that end up governing the sampling
memo dict: rid is the runtime object identity id(self) that the cache-hit
check tests, did is the declared identity string self.id that the cache
write stores under. In CPython the former is an int and the latter a
string, so they can never collide. -/
inductive MKey where
  | rid : Nat → MKey
  | did : String → MKey
  deriving DecidableEq

/-- SampMemo models the memo dict passed through one sampling call tree. -/
def SampMemo : Type := List (MKey × Int)

/-- sampMemoLookup models key in memo / memo[key]. -/
def sampMemoLookup (m : SampMemo) (k : MKey) : Option Int :=
  match m with
  | [] => Option.none
  | (k2, x) :: rest => if k2 == k then some x else sampMemoLookup rest k

/-- sampMemoStore models the dict assignment memo[key] = x. -/
def sampMemoStore (m : SampMemo) (k : MKey) (x : Int) : SampMemo :=
  match m with
  | [] => [(k, x)]
  | (k2, y) :: rest =>
      if k2 == k then (k2, x) :: rest else (k2, y) :: sampMemoStore rest k x

/-- SampVar models the slice of an Int variable that sample reads: pyId
models the CPython runtime identity id(self), idStr the id property, and
the bounds are literal integers (variable bounds would recurse into their
own sample calls, a path no claim exercises). -/
structure SampVar where
  pyId : Nat
  idStr : String
  low : Int
  high : Int

/-- Rng models the caller-supplied entropy source as the stream of raw
draws it will produce; each scalar rvs call consumes one raw draw. -/
def Rng : Type := List Nat

/-- intSampleDraw translates Int._sample for literal bounds and scalar
size: one draw from the discrete uniform distribution over the inclusive
range, implemented as scipy.stats.randint.rvs(low, high + 1) — the raw
draw is reduced into the half-open range low..high+1 — consuming one raw
draw from the rng state. An exhausted stream returns the low bound (a
deterministic stand-in for further entropy; the concrete traces below
never exhaust it). -/
def intSampleDraw (v : SampVar) : Rng → Int × Rng
  | [] => (v.low, [])
  | r :: rs => (v.low + Int.ofNat (r % (v.high + 1 - v.low).toNat), rs)

/-- varSample translates VarExpression.sample for a call that supplies a
memo dict (the rng-defaulting line and the memo-less path are not at
issue): the cache-hit check is id(self) in memo; its branch returns
memo[self.id], a KeyError when that string key is absent; otherwise the
kind-specific _sample draws, the result is stored under memo[self.id] —
the declared identity string, not the runtime identity the check tested —
and returned. -/
def varSample (v : SampVar) (rng : Rng) (memo : SampMemo) :
    Except PyErr (Int × Rng × SampMemo) :=
  if (sampMemoLookup memo (.rid v.pyId)).isSome then
    match sampMemoLookup memo (.did v.idStr) with
    | some s => .ok (s, rng, memo)
    | Option.none => .error (.keyError v.idStr)
  else
    match intSampleDraw v rng with
    | (s, rng2) => .ok (s, rng2, sampMemoStore memo (.did v.idStr) s)

/-! ## Deep copy (Expression.__deepcopy__ via clone(deep=True)) -/

/-- PRef models one field slot of a heap node: a plain payload (copied by
value) or a reference to another heap object (the aliasing-sensitive
part). -/
inductive PRef where
  | lit : Int → PRef
  | addr : Nat → PRef
  deriving DecidableEq

/-- PNode models a heap object of the expression graph: a binary node
with left and right slots (the operator string is copied by value and
plays no role in sharing, so it is omitted) or a variable leaf carrying
its identity string. -/
inductive PNode where
  | pbin : PRef → PRef → PNode
  | pvar : String → PNode
  deriving DecidableEq

/-- Heap models the object graph: the node at address a is entry a of the
list. -/
abbrev Heap : Type := List PNode

/-- deepcopyNode models what Expression.__deepcopy__ does to the object at
address a of heap h, appending the copies it allocates to the output heap
nh and returning the address of the copy of a. The method registers
itself in the memo it was handed and then calls
copy.deepcopy(self.__dict__) WITHOUT passing that memo along, so the
field-dict copy runs under a fresh memo of its own: the fields of the one
node are copied left to right under that single fresh memo (each child
registers itself in it before the next sibling is processed), which
unifies duplicate references among the direct fields of a single node —
and nothing else, because each child's own field dict is in turn copied
under yet another fresh memo. For the two-slot binary node this per-node
memo amounts to: after the left slot is copied, the right slot reuses the
left copy exactly when it references the same original object the left
slot did; otherwise it is copied afresh. Fuel bounds the recursion depth;
the graphs of the claims are finite and acyclic. -/
def deepcopyNode (fuel : Nat) (h : Heap) (nh : Heap) (a : Nat) :
    Option (Nat × Heap) :=
  match fuel with
  | 0 => Option.none
  | fuel2 + 1 =>
      match h[a]? with
      | Option.none => Option.none
      | some (.pvar s) => some (nh.length, nh ++ [.pvar s])
      | some (.pbin (.lit x) (.lit y)) =>
          some (nh.length, nh ++ [.pbin (.lit x) (.lit y)])
      | some (.pbin (.lit x) (.addr d)) =>
          match deepcopyNode fuel2 h nh d with
          | some (d2, nh2) =>
              some (nh2.length, nh2 ++ [.pbin (.lit x) (.addr d2)])
          | Option.none => Option.none
      | some (.pbin (.addr c) (.lit y)) =>
          match deepcopyNode fuel2 h nh c with
          | some (c2, nh2) =>
              some (nh2.length, nh2 ++ [.pbin (.addr c2) (.lit y)])
          | Option.none => Option.none
      | some (.pbin (.addr c) (.addr d)) =>
          match deepcopyNode fuel2 h nh c with
          | some (c2, nh2) =>
              if d == c then
                some (nh2.length, nh2 ++ [.pbin (.addr c2) (.addr c2)])
              else
                match deepcopyNode fuel2 h nh2 d with
                | some (d2, nh3) =>
                    some (nh3.length, nh3 ++ [.pbin (.addr c2) (.addr d2)])
                | Option.none => Option.none
          | Option.none => Option.none

/-- cloneDeep models clone(deep=True): copy.deepcopy(self) dispatches to
Expression.__deepcopy__ on the root with a fresh top-level memo (which,
since the method never passes it down, influences nothing in an acyclic
graph); the copy starts on an empty output heap. -/
def cloneDeep (fuel : Nat) (h : Heap) (root : Nat) : Option (Nat × Heap) :=
  deepcopyNode fuel h [] root

/-! ## Variable equality (__eq__) -/

/-- EqRes models the value a Python __eq__ chain produces here: a genuine
bool, or an expression node. The latter arises because Int.__eq__ and
Float.__eq__ read other._upper and other._lower, attributes that do not
exist — Expression.__getattribute__ turns the AttributeError into an
ExpressionAttributeAccess node, and comparing a literal bound against
that node builds a BinaryExpression via the reflected __eq__. An
expression node is truthy. -/
inductive EqRes where
  | b : Bool → EqRes
  | exprNode : EqRes

/-- eqTruthy models bool() applied to an __eq__ result: a BinaryExpression
object defines no __bool__, so it is truthy. -/
def eqTruthy : EqRes → Bool
  | .b x => x
  | .exprNode => true

/-- pyAndE models the Python and between two already-evaluated operands:
the left operand is returned when falsy, else the right. -/
def pyAndE (x y : EqRes) : EqRes :=
  if eqTruthy x then y else x

/-- boundCmpAttr models the comparison self._high == other._upper (and the
_low/_lower twin) inside Int.__eq__ / Float.__eq__. other._upper resolves
to an ExpressionAttributeAccess node. When the bound is a literal number,
number == node returns NotImplemented and the reflected Expression.__eq__
builds a truthy BinaryExpression. When the bound is itself a variable, the
variable's own __eq__ runs first, its type(self) is type(other) test
against the attribute-access node fails, and the comparison is the genuine
bool False. -/
def boundCmpAttr : IBound → EqRes
  | .lit _ => .exprNode
  | .varB _ => .b false

/-- boundCmpAttrF is boundCmpAttr for Float bounds. -/
def boundCmpAttrF : FBound → EqRes
  | .lit _ => .exprNode
  | .varB _ => .b false

/-- intEqPy translates Int.__eq__ applied to two Int variables:
b = VarExpression.__eq__ (the type check succeeds between two Ints, so b
is self.value == other.value), then b and self._high == other._upper and
self._low == other._lower, combined with Python and. -/
def intEqPy (a b2 : IntVar) : EqRes :=
  pyAndE (pyAndE (.b (pyEqB a.value b2.value)) (boundCmpAttr a.high))
    (boundCmpAttr a.low)

/-- floatEqPy translates Float.__eq__, which is structurally identical. -/
def floatEqPy (a b2 : FloatVar) : EqRes :=
  pyAndE (pyAndE (.b (pyEqB a.value b2.value)) (boundCmpAttrF a.high))
    (boundCmpAttrF a.low)

/-- ListEqVar models the slice of a List variable that List.__eq__ reads:
the value field (None until frozen, here a scalar frozen value), the
candidate list, _k (a literal int or absent) and _replace; candidates and
values are plain values here, whose == is a genuine bool (an
Expression-valued field would route through the node-building comparisons
modelled for the numeric kinds). -/
structure ListEqVar where
  var_id : Nat
  name : Option String
  values : List PyVal
  k : Option Int
  replace : Bool
  value : PyVal

/-- optIntEqB models _k == _k for literal-or-absent k: None == None is
True, None == int is False, ints compare numerically. -/
def optIntEqB : Option Int → Option Int → Bool
  | Option.none, Option.none => true
  | some n, some m => n == m
  | _, _ => false

/-- listEqPy translates List.__eq__ applied to two List variables with
plain fields: b = VarExpression.__eq__ (type check passes, value fields
compared), then b and self._values == other._values and
self._k == other._k and self._replace == other._replace — these attribute
names exist, so every conjunct is a genuine bool. -/
def listEqPy (a b2 : ListEqVar) : Bool :=
  pyEqB a.value b2.value && pyEqB.listPyEqB a.values b2.values
    && optIntEqB a.k b2.k && (a.replace == b2.replace)

/-! ## ObjectExpression.__call__ classification -/

/-- WObj models a wrapped external object as ObjectExpression.__call__
introspects it: an opaque identity plus the four inspect predicates the
classification reads. -/
structure WObj where
  oid : Nat
  isClass : Bool
  isFunction : Bool
  isBuiltin : Bool
  isMethod : Bool
  deriving DecidableEq

/-- FnSlot models what the function field of the built
FunctionCallExpression holds: the construct capability obj.__init__ of the
wrapped class, the invoke capability obj.__call__ of the wrapped callable
instance, or the wrapped function itself. -/
inductive FnSlot where
  | initOf : WObj → FnSlot
  | callOf : WObj → FnSlot
  | funcItself : WObj → FnSlot
  deriving DecidableEq

/-- FCallExpr models the FunctionCallExpression record that
ObjectExpression.__call__ builds: function_parent, function, and the
given args and kwargs. -/
structure FCallExpr where
  functionParent : Option WObj
  function : FnSlot
  args : List Opnd
  kwargs : List (String × Opnd)

/-- objectExprCall translates ObjectExpression.__call__: the three checks
in source order — inspect.isclass(obj) first; then inspect.isfunction(obj)
or (inspect.isbuiltin(obj) and not inspect.ismethod(obj)); else the
callable-instance fallback — each building the corresponding
FunctionCallExpression with the given args and kwargs. -/
def objectExprCall (o : WObj) (args : List Opnd)
    (kwargs : List (String × Opnd)) : FCallExpr :=
  if o.isClass then
    { functionParent := some o, function := .initOf o,
      args := args, kwargs := kwargs }
  else if o.isFunction || (o.isBuiltin && !o.isMethod) then
    { functionParent := Option.none, function := .funcItself o,
      args := args, kwargs := kwargs }
  else
    { functionParent := some o, function := .callOf o,
      args := args, kwargs := kwargs }

/-! ## Theorems -/

theorem optElse_assoc (a b c : Option Nat) :
    optElse (optElse a b) c = optElse a (optElse b c) := by
  cases a <;> simp [optElse]

theorem lastOcc_append (l1 l2 : List (String × Nat)) (k : String) :
    lastOcc (l1 ++ l2) k = optElse (lastOcc l2 k) (lastOcc l1 k) := by
  induction l1 with
  | nil => cases h : lastOcc l2 k <;> simp [lastOcc, optElse, h]
  | cons p rest ih =>
      obtain ⟨k2, v⟩ := p
      have e1 : lastOcc (((k2, v) :: rest) ++ l2) k
          = optElse (lastOcc (rest ++ l2) k)
              (if k2 == k then some v else Option.none) := rfl
      have e2 : lastOcc ((k2, v) :: rest) k
          = optElse (lastOcc rest k)
              (if k2 == k then some v else Option.none) := rfl
      rw [e1, e2, ih, optElse_assoc]

mutual
theorem choices_lookup (e : Expr) (k : String) :
    Expr.choices e k = lastOcc (Expr.varOccs e) k := by
  cases e with
  | objectE obj => simp [Expr.choices, Expr.varOccs, lastOcc, varMemoEmpty]
  | binE l r op =>
      rw [show Expr.choices (.binE l r op)
            = choiceAux (choiceAux varMemoEmpty l) r from rfl]
      rw [choiceAux_lookup (choiceAux varMemoEmpty l) r k,
        choiceAux_lookup varMemoEmpty l k]
      rw [show Expr.varOccs (.binE l r op)
            = Opnd.varOccs l ++ Opnd.varOccs r from rfl]
      rw [lastOcc_append]
      cases h : lastOcc (Opnd.varOccs r) k <;>
        cases h2 : lastOcc (Opnd.varOccs l) k <;>
          simp [optElse, varMemoEmpty]
  | unaryE op x =>
      rw [show Expr.choices (.unaryE op x) = choiceAux varMemoEmpty x from rfl]
      rw [choiceAux_lookup varMemoEmpty x k]
      rw [show Expr.varOccs (.unaryE op x) = Opnd.varOccs x from rfl]
      cases h : lastOcc (Opnd.varOccs x) k <;> simp [optElse, varMemoEmpty]
  | varE tag idStr v =>
      simp [Expr.choices, Expr.varOccs, lastOcc, varMemoInsert, varMemoEmpty,
        optElse]
theorem choiceAux_lookup (m : VarMemo) (a : Opnd) (k : String) :
    choiceAux m a k = optElse (lastOcc (Opnd.varOccs a) k) (m k) := by
  cases a with
  | val v => simp [choiceAux, Opnd.varOccs, lastOcc, optElse]
  | expr e =>
      cases e with
      | objectE obj =>
          rw [show choiceAux m (.expr (.objectE obj))
                = varMemoUpdate m (Expr.choices (.objectE obj)) from rfl]
          rw [show Opnd.varOccs (.expr (.objectE obj))
                = Expr.varOccs (.objectE obj) from rfl]
          simp only [varMemoUpdate, choices_lookup (Expr.objectE obj) k]
      | binE l r op =>
          rw [show choiceAux m (.expr (.binE l r op))
                = varMemoUpdate m (Expr.choices (.binE l r op)) from rfl]
          rw [show Opnd.varOccs (.expr (.binE l r op))
                = Expr.varOccs (.binE l r op) from rfl]
          simp only [varMemoUpdate, choices_lookup (Expr.binE l r op) k]
      | unaryE op x =>
          rw [show choiceAux m (.expr (.unaryE op x))
                = varMemoUpdate m (Expr.choices (.unaryE op x)) from rfl]
          rw [show Opnd.varOccs (.expr (.unaryE op x))
                = Expr.varOccs (.unaryE op x) from rfl]
          simp only [varMemoUpdate, choices_lookup (Expr.unaryE op x) k]
      | varE tag idStr v =>
          rw [show choiceAux m (.expr (.varE tag idStr v))
                = varMemoInsert m idStr tag from rfl]
          rw [show Opnd.varOccs (.expr (.varE tag idStr v))
                = [(idStr, tag)] from rfl]
          simp only [varMemoInsert, lastOcc, optElse]
          cases h : (idStr == k) <;> simp [h, optElse]
end

/-- C1 (counterexample): the claim says evaluating a never-frozen variable
fails with a missing-data signal. It does not: the value field of a
freshly constructed Int(0, 10) is the class-attribute None, which is
neither an Expression nor a nested structure, so VarExpression.evaluate
takes its final branch and returns None as an ordinary successful
result — no failure of any kind is raised. -/
theorem c1_counterexample :
    varEvaluate (.pv (intNew (.lit 0) (.lit 10) Option.none 0).value)
      = .ok (.pv .none) := by
  rfl

/-- C1 (amended): calling evaluate on an Int, Float or List variable whose
value field is still absent does not fail; it returns the absent marker
None as the result (the code defines no missing-data signal, and the
final branch of VarExpression.evaluate returns the value unchanged). -/
theorem c1_amended :
    (∀ (lo hi : IBound) (nm : Option String) (ctr : Nat),
        varEvaluate (.pv (intNew lo hi nm ctr).value) = .ok (.pv .none))
    ∧ (∀ (lo hi : FBound) (nm : Option String) (ctr : Nat),
        varEvaluate (.pv (floatNew lo hi nm ctr).value) = .ok (.pv .none))
    ∧ (∀ (vals : List Cand) (ks : KSpec) (r inv : Bool) (nm : Option String)
        (ctr : Nat),
        (listNew vals ks r inv nm ctr).value = Option.none
          ∧ varEvaluate (.pv .none) = .ok (.pv .none)) :=
  ⟨fun _ _ _ _ => rfl, fun _ _ _ _ => rfl, fun _ _ _ _ _ _ => ⟨rfl, rfl⟩⟩

/-- C5 (counterexample): the claim says the entry kept on an identity
collision is the first occurrence in traversal order. It is the last:
for left and right variable leaves sharing identity x (construction tags
1 and 2), the dict assignment memo[o.id] = o made for the right leaf
overwrites the left one, so choices keeps tag 2 while the first occurrence
in traversal order is tag 1. -/
theorem c5_counterexample :
    Expr.choices
        (.binE (.expr (.varE 1 "x" .none)) (.expr (.varE 2 "x" .none)) "+") "x"
      = some 2
    ∧ Expr.varOccs
        (.binE (.expr (.varE 1 "x" .none)) (.expr (.varE 2 "x" .none)) "+")
      = [("x", 1), ("x", 2)] := by
  exact ⟨rfl, rfl⟩

/-- C5 (amended): for every node, choices returns a mapping from variable
identity to variable covering exactly the variables the traversal reaches
from that node, and when two distinct variable objects share an identity
the entry kept is the last occurrence encountered in traversal order
(each dict write overwrites the previous entry under that key). -/
theorem c5_amended (e : Expr) (k : String) :
    Expr.choices e k = lastOcc (Expr.varOccs e) k :=
  choices_lookup e k

/-- C2 (code_bug): freezing List with three plain candidates and k = 2,
invariant false, with the valid choice shape of exactly two in-range
indices 0 and 2, crashes with an IndexError instead of completing: the
propagation loop indexes the freshly assigned two-element value list with
the original candidate indices (self.value[i] for i in idx), and 2 is out
of range for it. The value field is left holding the chosen candidates
assigned just before the loop, showing the failure happens during
propagation. -/
theorem c2_failing_input :
    (listFreeze
        (listNew [.cval (.str "a"), .cval (.str "b"), .cval (.str "c")]
          (.kLit 2) false false (some "L") 0)
        [("L", .listv [.int 0, .int 2])]).2
      = .error .indexError
    ∧ (listFreeze
        (listNew [.cval (.str "a"), .cval (.str "b"), .cval (.str "c")]
          (.kLit 2) false false (some "L") 0)
        [("L", .listv [.int 0, .int 2])]).1.value
      = some (.multi [.cval (.str "a"), .cval (.str "c")]) :=
  ⟨rfl, rfl⟩

/-- C3 (code_bug): sampling the same variable object twice through one
shared memo does not return the cached first draw. The first call draws 3
and stores it under the declared identity string; the second call's
cache-hit check tests the runtime identity id(self), which is never the
key anything was stored under, so it draws again and returns 5, not the
cached 3. -/
theorem c3_failing_input :
    varSample ⟨1000, "v", 0, 100⟩ [3, 5] []
      = .ok (3, [5], [(.did "v", 3)])
    ∧ varSample ⟨1000, "v", 0, 100⟩ [5] [(.did "v", 3)]
        = .ok (5, [], [(.did "v", 5)])
    ∧ (5 : Int) ≠ 3 :=
  ⟨rfl, rfl, by decide⟩

/-- C4 (code_bug): deep-copying the graph (v + 1) + v, in which the one
variable at address 0 is reachable both through the inner node and
directly from the root, yields a copy in which the two reference sites
hold two distinct variable copies (addresses 0 and 2 of the new heap) —
the memo is not threaded through copy.deepcopy(self.__dict__), so only
duplicate references among the direct fields of a single node are unified,
as the second graph (v + v), whose copy does share one variable copy,
shows. -/
theorem c4_failing_input :
    cloneDeep 10
        [.pvar "v", .pbin (.addr 0) (.lit 1), .pbin (.addr 1) (.addr 0)] 2
      = some (3, [.pvar "v", .pbin (.addr 0) (.lit 1), .pvar "v",
          .pbin (.addr 1) (.addr 2)])
    ∧ cloneDeep 10 [.pvar "v", .pbin (.addr 0) (.addr 0)] 1
        = some (1, [.pvar "v", .pbin (.addr 0) (.addr 0)]) :=
  ⟨rfl, rfl⟩

theorem pyGT_int (a b : Int) : pyGT (.int a) (.int b) = .ok (decide (b < a)) := by
  simp only [pyGT, pyNumQ]
  congr 1
  rw [decide_eq_decide]
  exact Int.cast_lt

/-- C6 (confirmed): for an Int variable with literal bounds, freeze raises
the invalid-choice signal naming the variable and the violated range
exactly when the value stored under the variable's identity in the choice
mapping lies outside the inclusive range, and an in-range chosen integer
is stored into the value field unchanged. -/
theorem c6_int_freeze_range_validation
    (v : IntVar) (chv : Choice) (lo hi c : Int)
    (hlo : v.low = IBound.lit lo) (hhi : v.high = IBound.lit hi)
    (hc : choiceLookup chv v.idStr = some (.int c)) :
    ((freezeInt v chv).2
        = .error (.invalidChoice v.idStr (.int lo) (.int hi) (.int c))
      ↔ (c < lo ∨ hi < c))
    ∧ (lo ≤ c → c ≤ hi →
        (freezeInt v chv).1.value = .int c ∧ (freezeInt v chv).2 = .ok ()) := by
  have hfr : freezeInt v chv =
      if c < lo ∨ hi < c then
        (v, .error (.invalidChoice v.idStr (.int lo) (.int hi) (.int c)))
      else ({ v with value := .int c }, .ok ()) := by
    simp only [freezeInt, hc, hlo, hhi, pyGT_int]
    by_cases h1 : c < lo
    · simp [h1]
    · by_cases h2 : hi < c
      · simp [h1, h2]
      · simp [h1, h2]
  rw [hfr]
  by_cases h1 : c < lo ∨ hi < c
  · exact ⟨by simp [h1], fun hle1 hle2 => absurd h1 (by omega)⟩
  · exact ⟨by simp [h1], fun _ _ => by simp [h1]⟩

/-- C6 witness: Int(0, 10) named x frozen with the in-range choice 7 ends
with value 7, instantiating the range-validation theorem. -/
theorem c6_witness :
    choiceLookup [("x", .int 7)] (intNew (.lit 0) (.lit 10) (some "x") 0).idStr
      = some (.int 7)
    ∧ (freezeInt (intNew (.lit 0) (.lit 10) (some "x") 0)
        [("x", .int 7)]).1.value = .int 7 :=
  ⟨rfl,
    ((c6_int_freeze_range_validation
        (intNew (.lit 0) (.lit 10) (some "x") 0)
        [("x", .int 7)] 0 10 7 rfl rfl rfl).2
      (by decide) (by decide)).1⟩

/-- C7 (counterexample): two List variables of the same kind, both frozen
to the same concrete value a, but declared over different candidate lists,
compare unequal — List.__eq__ also compares _values (and _k, _replace),
so equality is not determined by the value fields alone as the claim
states. -/
theorem c7_counterexample :
    listEqPy
        { var_id := 0, name := some "u", values := [.str "a", .str "b"],
          k := Option.none, replace := false, value := .str "a" }
        { var_id := 1, name := some "u", values := [.str "a", .str "c"],
          k := Option.none, replace := false, value := .str "a" }
      = false
    ∧ pyEqB (.str "a") (.str "a") = true :=
  ⟨rfl, rfl⟩

/-- C7 (amended): equality between same-kind variables never consults
identity (renaming var_id and name changes nothing); same-kind variables
with different values compare unequal; and same-kind variables with the
same value compare equal-truthy provided, for Int and Float, that both
bounds are literal (the misspelled attribute reads make the two bound
conjuncts truthy expression nodes then, while a variable-valued bound
compares as the genuine bool False), and provided, for List, that the
candidate lists, k and replace also coincide, since List.__eq__ compares
those fields as well. -/
theorem c7_amended :
    (∀ (a b2 : IntVar) (la ha : Int), a.low = IBound.lit la →
        a.high = IBound.lit ha →
        eqTruthy (intEqPy a b2) = pyEqB a.value b2.value)
    ∧ (∀ (a b2 : FloatVar) (la ha : ℚ), a.low = FBound.lit la →
        a.high = FBound.lit ha →
        eqTruthy (floatEqPy a b2) = pyEqB a.value b2.value)
    ∧ (∀ a b2 : ListEqVar, pyEqB a.value b2.value = false →
        listEqPy a b2 = false)
    ∧ (∀ a b2 : ListEqVar, pyEqB a.value b2.value = true →
        pyEqB.listPyEqB a.values b2.values = true →
        optIntEqB a.k b2.k = true → a.replace = b2.replace →
        listEqPy a b2 = true)
    ∧ (∀ (a b2 : IntVar) (n : Nat) (nm : Option String),
        intEqPy { a with var_id := n, name := nm } b2 = intEqPy a b2) := by
  refine ⟨?_, ?_, ?_, ?_, ?_⟩
  · intro a b2 la ha hlo hhi
    cases hx : pyEqB a.value b2.value <;>
      simp [intEqPy, hlo, hhi, boundCmpAttr, pyAndE, eqTruthy, hx]
  · intro a b2 la ha hlo hhi
    cases hx : pyEqB a.value b2.value <;>
      simp [floatEqPy, hlo, hhi, boundCmpAttrF, pyAndE, eqTruthy, hx]
  · intro a b2 hx
    simp [listEqPy, hx]
  · intro a b2 h1 h2 h3 h4
    simp [listEqPy, h1, h2, h3, h4]
  · intro a b2 n nm
    rfl

/-- C7 witness: two unfrozen Ints over literal bounds compare with the
truthiness of their value comparison, and two same-value Lists with
different candidates compare unequal, instantiating the amended
theorem. -/
theorem c7_witness :
    eqTruthy (intEqPy (intNew (.lit 0) (.lit 10) (some "u") 0)
        (intNew (.lit 0) (.lit 10) (some "w") 1))
      = pyEqB (intNew (.lit 0) (.lit 10) (some "u") 0).value
          (intNew (.lit 0) (.lit 10) (some "w") 1).value
    ∧ listEqPy
        { var_id := 0, name := some "u", values := [.str "a"],
          k := Option.none, replace := false, value := .str "p" }
        { var_id := 1, name := some "u", values := [.str "a"],
          k := Option.none, replace := false, value := .str "q" }
      = false :=
  ⟨c7_amended.1 (intNew (.lit 0) (.lit 10) (some "u") 0)
      (intNew (.lit 0) (.lit 10) (some "w") 1) 0 10 rfl rfl,
    c7_amended.2.2.1
      { var_id := 0, name := some "u", values := [.str "a"],
        k := Option.none, replace := false, value := .str "p" }
      { var_id := 1, name := some "u", values := [.str "a"],
        k := Option.none, replace := false, value := .str "q" }
      rfl⟩

/-- C8 (confirmed): BinaryExpression.evaluate resolves both children and
dispatches solely on the left operand's own operator implementation: the
direct construction ObjectExpression(5) + ObjectExpression(3) evaluates
to 8, the reflected construction 3 + ObjectExpression(5) (a plain 3 on
the left) also evaluates to 8 by dispatching on the evaluated left
operand, and when the evaluated left operand has no implementation of the
operator (None + anything) evaluation fails with an AttributeError for
every right operand — there is no fallback to the right operand's
reflected implementation. -/
theorem c8_left_dispatch :
    Expr.evaluate (exprDunderAdd (.objectE (.int 5)) (.expr (.objectE (.int 3))))
      = .ok (.int 8)
    ∧ Expr.evaluate (exprDunderRAdd (.objectE (.int 5)) (.val (.int 3)))
        = .ok (.int 8)
    ∧ (∀ rv : PyVal,
        Expr.evaluate (.binE (.val .none) (.val rv) "+")
          = .error (.attributeError "__add__")) :=
  ⟨rfl, rfl, fun _ => rfl⟩

/-- C9 (confirmed): ObjectExpression.__call__ classifies the wrapped
object by the three checks in source order — class first, then stateless
function or builtin non-method, then the callable-instance fallback — and
builds, respectively, a FunctionCallExpression with parent = wrapped and
the construct capability, one with no parent and the wrapped object
itself as function, or one with parent = wrapped and the invoke capability,
carrying the given args and kwargs in every case. -/
theorem c9_call_classification (o : WObj) (args : List Opnd)
    (kwargs : List (String × Opnd)) :
    (o.isClass = true →
      objectExprCall o args kwargs
        = { functionParent := some o, function := .initOf o,
            args := args, kwargs := kwargs })
    ∧ (o.isClass = false →
        (o.isFunction || (o.isBuiltin && !o.isMethod)) = true →
        objectExprCall o args kwargs
          = { functionParent := Option.none, function := .funcItself o,
              args := args, kwargs := kwargs })
    ∧ (o.isClass = false →
        (o.isFunction || (o.isBuiltin && !o.isMethod)) = false →
        objectExprCall o args kwargs
          = { functionParent := some o, function := .callOf o,
              args := args, kwargs := kwargs }) := by
  refine ⟨?_, ?_, ?_⟩
  · intro h1
    simp [objectExprCall, h1]
  · intro h1 h2
    simp [objectExprCall, h1, h2]
  · intro h1 h2
    simp [objectExprCall, h1, h2]

/-- C9 witness: one wrapped class, one wrapped plain function and one
wrapped callable instance, classified by the theorem at concrete
objects. -/
theorem c9_witness :
    objectExprCall ⟨0, true, false, false, false⟩ [] []
      = { functionParent := some ⟨0, true, false, false, false⟩,
          function := .initOf ⟨0, true, false, false, false⟩,
          args := [], kwargs := [] }
    ∧ objectExprCall ⟨1, false, true, false, false⟩ [] []
        = { functionParent := Option.none,
            function := .funcItself ⟨1, false, true, false, false⟩,
            args := [], kwargs := [] }
    ∧ objectExprCall ⟨2, false, false, false, false⟩ [] []
        = { functionParent := some ⟨2, false, false, false, false⟩,
            function := .callOf ⟨2, false, false, false, false⟩,
            args := [], kwargs := [] } :=
  ⟨(c9_call_classification ⟨0, true, false, false, false⟩ [] []).1 rfl,
    (c9_call_classification ⟨1, false, true, false, false⟩ [] []).2.1 rfl rfl,
    (c9_call_classification ⟨2, false, false, false, false⟩ [] []).2.2 rfl rfl⟩

theorem freezeInt_ok_or_unchanged (v : IntVar) (ch : Choice) :
    (freezeInt v ch).2 = .ok () ∨ (freezeInt v ch).1 = v := by
  unfold freezeInt
  repeat first
  | (left ; rfl)
  | (right ; rfl)
  | split

theorem freezeFloat_ok_or_unchanged (v : FloatVar) (ch : Choice) :
    (freezeFloat v ch).2 = .ok () ∨ (freezeFloat v ch).1 = v := by
  unfold freezeFloat
  repeat first
  | (left ; rfl)
  | (right ; rfl)
  | split

/-- C10 (confirmed): when freezing an Int or Float variable with literal
bounds fails with the invalid-choice signal, the variable's state — in
particular its value field — is exactly what it was before the call: the
signal is raised before any assignment, so a failed freeze is atomic at
the level of the individual variable. -/
theorem c10_failed_freeze_atomic :
    (∀ (v : IntVar) (ch : Choice) (lo hi : Int) (s : String)
        (pl ph pc : PyVal),
        v.low = IBound.lit lo → v.high = IBound.lit hi →
        (freezeInt v ch).2 = .error (.invalidChoice s pl ph pc) →
        (freezeInt v ch).1 = v)
    ∧ (∀ (v : FloatVar) (ch : Choice) (lo hi : ℚ) (s : String)
        (pl ph pc : PyVal),
        v.low = FBound.lit lo → v.high = FBound.lit hi →
        (freezeFloat v ch).2 = .error (.invalidChoice s pl ph pc) →
        (freezeFloat v ch).1 = v) := by
  constructor
  · intro v ch lo hi s pl ph pc _ _ herr
    rcases freezeInt_ok_or_unchanged v ch with hok | hst
    · rw [hok] at herr
      exact absurd herr (by simp)
    · exact hst
  · intro v ch lo hi s pl ph pc _ _ herr
    rcases freezeFloat_ok_or_unchanged v ch with hok | hst
    · rw [hok] at herr
      exact absurd herr (by simp)
    · exact hst

/-- C10 witness: Int(0, 10) frozen with 11 and Float(0, 1) frozen with
2.0 both fail with the invalid-choice signal and keep their state,
instantiating the atomicity theorem. -/
theorem c10_witness :
    (freezeInt (intNew (.lit 0) (.lit 10) (some "x") 0) [("x", .int 11)]).2
      = .error (.invalidChoice "x" (.int 0) (.int 10) (.int 11))
    ∧ (freezeInt (intNew (.lit 0) (.lit 10) (some "x") 0)
        [("x", .int 11)]).1 = intNew (.lit 0) (.lit 10) (some "x") 0
    ∧ (freezeFloat (floatNew (.lit 0) (.lit 1) (some "y") 0)
        [("y", .float 2)]).2
      = .error (.invalidChoice "y" (.float 0) (.float 1) (.float 2))
    ∧ (freezeFloat (floatNew (.lit 0) (.lit 1) (some "y") 0)
        [("y", .float 2)]).1 = floatNew (.lit 0) (.lit 1) (some "y") 0 :=
  ⟨rfl,
    c10_failed_freeze_atomic.1 (intNew (.lit 0) (.lit 10) (some "x") 0)
      [("x", .int 11)] 0 10 "x" (.int 0) (.int 10) (.int 11) rfl rfl rfl,
    rfl,
    c10_failed_freeze_atomic.2 (floatNew (.lit 0) (.lit 1) (some "y") 0)
      [("y", .float 2)] 0 1 "y" (.float 0) (.float 1) (.float 2) rfl rfl rfl⟩

end MetalGPy
